import Mathlib

/-
Verification of the cpu_parse repository (src/cpu.py) against its
natural-language specification.

Shallow embedding conventions:
  * Pseudo-file contents are passed in explicitly: `/proc/cpuinfo` as an
    `Option (List String)` (`none` = the file cannot be opened, matching the
    `FileNotFoundError` handler; `some lines` = the file's lines, without the
    terminating newline, which `str.strip()` removes anyway).
  * sysfs topology directories become a list of `(physical_package_id, core_id)`
    reads, each an `Option Int` (`none` = `_read_int` returned `None`).
  * The cpufreq policy directory becomes `Option (name × cur_khz × max_khz)`.
  * Python `float` values are modelled as exact rationals `ℚ`; `round(x, n)`
    is modelled as exact decimal rounding with ties to even, which is Python's
    rounding mode on the values the program produces.
  * `int(s)` / `float(s)` are modelled on plain decimal literals with an
    optional sign and surrounding whitespace (`pyInt?`, `pyFloat?`); exotic
    Python literal forms (underscores, exponents, non-ASCII digits) are out of
    scope for every claim considered here.
  * The optional `distro` library is modelled as `Option` of the triple of
    strings returned by `distro.name(pretty=False)`, `distro.version(pretty=False)`
    and `distro.name(pretty=True)` (calls assumed not to raise).
-/

/-! ## Python string primitives, modelled on character lists so that every
definition reduces in the kernel. -/

/-- Drop trailing characters satisfying `p` (helper for `str.strip`). -/
def dropTrailing (p : Char → Bool) (cs : List Char) : List Char :=
  (cs.reverse.dropWhile p).reverse

/-- Python `str.strip()` on a character list (ASCII whitespace). -/
def pyStripChars (cs : List Char) : List Char :=
  dropTrailing Char.isWhitespace (cs.dropWhile Char.isWhitespace)

/-- Python `str.strip()`. -/
def pyStrip (s : String) : String := String.mk (pyStripChars s.toList)

/-- Split a character list at the first occurrence of `sep`;
`none` when `sep` does not occur.  Models `str.partition` / `str.split(sep, 1)`. -/
def splitFirstOn (sep : Char) : List Char → Option (List Char × List Char)
  | [] => none
  | c :: cs =>
    if c = sep then some ([], cs)
    else
      match splitFirstOn sep cs with
      | some (l, r) => some (c :: l, r)
      | none => none

/-- The `key, _, value = line.partition(":")` step of `_parse_proc_cpuinfo`,
with both sides stripped; `none` models the `if ":" not in line: continue`
skip of separator-free lines. -/
def lineKV (line : String) : Option (String × String) :=
  match splitFirstOn ':' line.toList with
  | some (k, v) => some (String.mk (pyStripChars k), String.mk (pyStripChars v))
  | none => none

/-- Value of a decimal digit string (most significant first). -/
def digitsVal (cs : List Char) : Nat := cs.foldl (fun n c => n * 10 + (c.toNat - 48)) 0

/-- Python `int(s)` on a character list: strip whitespace, optional sign,
then decimal digits; `none` models `ValueError`. -/
def pyIntChars? (cs : List Char) : Option Int :=
  match pyStripChars cs with
  | [] => none
  | c :: rest =>
    if c = '-' then
      if !rest.isEmpty && rest.all Char.isDigit then some (-(digitsVal rest : Int)) else none
    else if c = '+' then
      if !rest.isEmpty && rest.all Char.isDigit then some (digitsVal rest : Int) else none
    else if (c :: rest).all Char.isDigit then some (digitsVal (c :: rest) : Int) else none

/-- Python `int(s)`; `none` models `ValueError`. -/
def pyInt? (s : String) : Option Int := pyIntChars? s.toList

/-- Python `float(s)` on plain decimal literals (optional sign, digits,
optional fractional part), as an exact rational; `none` models `ValueError`. -/
def pyFloatChars? (cs : List Char) : Option ℚ :=
  match pyStripChars cs with
  | [] => none
  | c :: rest =>
    let (sgn, t) : ℚ × List Char :=
      if c = '-' then (-1, rest) else if c = '+' then (1, rest) else (1, c :: rest)
    match splitFirstOn '.' t with
    | none =>
      if !t.isEmpty && t.all Char.isDigit then some (sgn * (digitsVal t : ℚ)) else none
    | some (ip, fp) =>
      if ip.isEmpty && fp.isEmpty then none
      else if ip.all Char.isDigit && fp.all Char.isDigit then
        some (sgn * ((digitsVal ip : ℚ) + (digitsVal fp : ℚ) / (10 ^ fp.length)))
      else none

/-- Python `float(s)` as an exact rational. -/
def pyFloat? (s : String) : Option ℚ := pyFloatChars? s.toList

/-- Python `str.split()` with no argument: split on whitespace runs,
discarding empty tokens.  The accumulator holds the current token reversed. -/
def wsSplitAux : List Char → List Char → List String
  | acc, [] => if acc.isEmpty then [] else [String.mk acc.reverse]
  | acc, c :: cs =>
    if c.isWhitespace then
      if acc.isEmpty then wsSplitAux [] cs
      else String.mk acc.reverse :: wsSplitAux [] cs
    else wsSplitAux (c :: acc) cs

/-- Python `str.split()` with no argument. -/
def wsSplit (s : String) : List String := wsSplitAux [] s.toList

/-- Python `str.strip('"')`: remove leading and trailing double quotes. -/
def stripQuoteChars (cs : List Char) : List Char :=
  dropTrailing (fun c => c = '"') (cs.dropWhile (fun c => c = '"'))

/-! ## Decimal rounding.  Python `round(x, n)` rounds half to even. -/

/-- Round a rational to the nearest integer, ties to even. -/
def halfEven (q : ℚ) : ℤ :=
  let f := ⌊q⌋
  let r := q - f
  if r < 1/2 then f else if 1/2 < r then f + 1 else if f % 2 = 0 then f else f + 1

/-- Python `round(x, 1)` on the exact-rational model. -/
def round1 (q : ℚ) : ℚ := (halfEven (q * 10) : ℚ) / 10

/-- Python `round(x, 2)` on the exact-rational model. -/
def round2 (q : ℚ) : ℚ := (halfEven (q * 100) : ℚ) / 100

/-! ## `_khz_to_mhz` (src/cpu.py lines 41-44). -/

/-- `_khz_to_mhz`: `None` passes through, otherwise `round(khz / 1000.0, 1)`. -/
def khzToMhz : Option Int → Option ℚ
  | none => none
  | some khz => some (round1 ((khz : ℚ) / 1000))

/-! ## `_parse_proc_cpuinfo` (src/cpu.py lines 92-149). -/

/-- The mutable locals of `_parse_proc_cpuinfo` during the line scan.
`sockets` is the `sockets` dict as an insertion-ordered association list. -/
structure ParseState where
  logical_cores : Nat
  vendor_id : String
  model_name : String
  cache_size : String
  cpu_mhz : Option ℚ
  sockets : List (Int × Int)
  current_socket : Option Int
deriving Repr, DecidableEq

/-- Initial values of the scan locals. -/
def initState : ParseState :=
  { logical_cores := 0, vendor_id := "Unknown", model_name := "Unknown",
    cache_size := "Unknown", cpu_mhz := none, sockets := [], current_socket := none }

/-- Python `current_socket not in sockets` (first-key lookup in the dict). -/
def lookupSock (p : Int) : List (Int × Int) → Option Int
  | [] => none
  | (q, n) :: rest => if q = p then some n else lookupSock p rest

/-- One iteration of the `for line in f` loop of `_parse_proc_cpuinfo`:
the `if ":" not in line: continue` skip followed by the `elif` chain. -/
def procLine (st : ParseState) (line : String) : ParseState :=
  match lineKV line with
  | none => st
  | some kv =>
    let key := kv.1
    let value := kv.2
    if key = "processor" then { st with logical_cores := st.logical_cores + 1 }
    else if key = "vendor_id" ∧ st.vendor_id = "Unknown" then { st with vendor_id := value }
    else if key = "model name" ∧ st.model_name = "Unknown" then { st with model_name := value }
    else if key = "cache size" ∧ st.cache_size = "Unknown" then { st with cache_size := value }
    else if key = "cpu MHz" ∧ st.cpu_mhz = none then { st with cpu_mhz := pyFloat? value }
    else if key = "physical id" then { st with current_socket := pyInt? value }
    else if key = "cpu cores" then
      match st.current_socket with
      | none => st
      | some cs =>
        if lookupSock cs st.sockets = none then
          match pyInt? value with
          | some n => { st with sockets := st.sockets ++ [(cs, n)] }
          | none => st
        else st
    else st

/-- The dict returned by `_parse_proc_cpuinfo`. -/
structure CpuInfo where
  vendor : String
  model : String
  logical_cores : Nat
  physical_cores : Int
  cache_size : String
  frequency_mhz_cur : Option ℚ
deriving Repr, DecidableEq

/-- `sum(sockets.values())`. -/
def sumVals (xs : List (Int × Int)) : Int := (xs.map (fun p => p.2)).sum

/-- `_parse_proc_cpuinfo` on the successfully opened file's lines. -/
def parseProcCpuinfo (lines : List String) : CpuInfo :=
  let st := lines.foldl procLine initState
  { vendor := st.vendor_id,
    model := st.model_name,
    logical_cores := st.logical_cores,
    physical_cores := if st.sockets.isEmpty then 0 else sumVals st.sockets,
    cache_size := st.cache_size,
    frequency_mhz_cur := st.cpu_mhz.map round1 }

/-- `_parse_proc_cpuinfo` including the `FileNotFoundError` handler, which
prints a diagnostic to stderr and calls `sys.exit(1)` (modelled as
`Except.error 1`). -/
def parseProcCpuinfoRun (file : Option (List String)) : Except Nat CpuInfo :=
  match file with
  | none => Except.error 1
  | some lines => Except.ok (parseProcCpuinfo lines)

/-! ## `_cpu_topology_from_sysfs` (src/cpu.py lines 152-165). -/

/-- `pairs.add(p)` on the set modelled as a duplicate-free list. -/
def insertPair (pairs : List (Int × Int)) (p : Int × Int) : List (Int × Int) :=
  if p ∈ pairs then pairs else pairs ++ [p]

/-- One topology directory's reads: `(physical_package_id, core_id)`. -/
abbrev TopoEntry := Option Int × Option Int

/-- The loop body of `_cpu_topology_from_sysfs`: skip an entry whose
package or core read failed, otherwise add the pair to the set. -/
def topoStep (pairs : List (Int × Int)) (e : TopoEntry) : List (Int × Int) :=
  match e with
  | (some pkg, some core) => insertPair pairs (pkg, core)
  | _ => pairs

/-- `_cpu_topology_from_sysfs`: `len(pairs) if pairs else 0`. -/
def cpuTopologyFromSysfs (entries : List TopoEntry) : Nat :=
  let pairs := entries.foldl topoStep []
  if pairs.isEmpty then 0 else pairs.length

/-! ## `_cpufreq_from_sysfs` (src/cpu.py lines 168-194). -/

/-- The dict returned by `_cpufreq_from_sysfs`. -/
structure FreqInfo where
  cur : Option ℚ
  max : Option ℚ
  policy : Option String
deriving Repr, DecidableEq

/-- `_cpufreq_from_sysfs`, with the chosen policy directory (policy0 if it
exists, else the lexicographically first, else none) and its two integer
reads supplied as input. -/
def cpufreqFromSysfs (policy : Option (String × Option Int × Option Int)) : FreqInfo :=
  match policy with
  | none => { cur := none, max := none, policy := none }
  | some (name, curKhz, maxKhz) =>
    { cur := khzToMhz curKhz, max := khzToMhz maxKhz, policy := some name }

/-! ## `_mem_gib` (src/cpu.py lines 197-213). -/

/-- `_mem_gib`, with the first line of `/proc/meminfo` supplied as input
(`none` = any read error, caught by the bare `except`).  The `match` on the
token list covers both the `len(parts) < 2` check and the `int(parts[1])`
`ValueError` path. -/
def memGib (firstLine : Option String) : Option ℚ :=
  match firstLine with
  | none => none
  | some line =>
    if line = "" then none
    else
      match wsSplit line with
      | _ :: second :: _ =>
        match pyInt? second with
        | some kb => some (round2 ((kb : ℚ) / 1048576))
        | none => none
      | _ => none

/-! ## `_detect_distribution` (src/cpu.py lines 47-89). -/

/-- The dict returned by `_detect_distribution`. -/
structure DistInfo where
  name : String
  version : String
  pretty : String
deriving Repr, DecidableEq

/-- One iteration of the `/etc/os-release` loop: trim the line, and on a
`PRETTY_NAME=` / `NAME=` / `VERSION_ID=` match store the part after the first
`=`, stripped of whitespace then of surrounding quotes (last match wins).
The accumulator is `(pretty, name, version)`. -/
def osRelStep (acc : Option String × Option String × Option String) (line : String) :
    Option String × Option String × Option String :=
  match splitFirstOn '=' (pyStripChars line.toList) with
  | none => acc
  | some (k, v) =>
    let value := String.mk (stripQuoteChars (pyStripChars v))
    if String.mk k = "PRETTY_NAME" then (some value, acc.2.1, acc.2.2)
    else if String.mk k = "NAME" then (acc.1, some value, acc.2.2)
    else if String.mk k = "VERSION_ID" then (acc.1, acc.2.1, some value)
    else acc

/-- The `pretty`, `name`, `version` locals after the `/etc/os-release` scan
(`none` input = the file is absent or unreadable). -/
def osRelTriple (osRelease : Option (List String)) :
    Option String × Option String × Option String :=
  match osRelease with
  | none => (none, none, none)
  | some ls => ls.foldl osRelStep (none, none, none)

/-- Python truthiness applied to the optional strings collected from
`/etc/os-release`: `if pretty:` is false for `None` and for `""`. -/
def truthy : Option String → Option String
  | none => none
  | some s => if s = "" then none else some s

/-- `_detect_distribution`.  `lib` is the `distro` library when importable:
the results of `distro.name(pretty=False)`, `distro.version(pretty=False)`
and `distro.name(pretty=True)`. -/
def detectDistribution (lib : Option (String × String × String))
    (osRelease : Option (List String)) : DistInfo :=
  match lib with
  | some (nm, ver, pr) =>
    let name := if nm = "" then "Unknown" else nm
    let version := if ver = "" then "Unknown" else ver
    let pretty := if pr = "" then pyStrip (name ++ " " ++ version) else pr
    { name := name, version := version, pretty := pretty }
  | none =>
    let t := osRelTriple osRelease
    let pretty := match truthy t.1 with | some p => p | none => "Unknown"
    let name := match truthy t.2.1 with | some n => n | none => "Unknown"
    let version := match truthy t.2.2 with | some v => v | none => "Unknown"
    let pretty := if pretty = "Unknown" then pyStrip (name ++ " " ++ version) else pretty
    { name := name, version := version, pretty := pretty }

/-! ## `get_cpu_stat` (src/cpu.py lines 216-259). -/

/-- Everything `get_cpu_stat` reads from the host, supplied explicitly. -/
structure Env where
  cpuinfo : Option (List String)
  topology : List TopoEntry
  cpufreqPolicy : Option (String × Option Int × Option Int)
  meminfoFirstLine : Option String
  lib : Option (String × String × String)
  osRelease : Option (List String)
  kernelRelease : Option String
  osSystem : String
  osVersion : String
deriving Repr, DecidableEq

/-- The `stats["cpu"]` sub-record. -/
structure CpuRecord where
  vendor : String
  model : String
  logical_cores : Nat
  physical_cores : Int
  cache_size : String
  frequency_mhz_cur : Option ℚ
  frequency_mhz_max : Option ℚ
  cpufreq_policy : Option String
deriving Repr, DecidableEq

/-- The `stats` dict assembled by `get_cpu_stat`. -/
structure Stats where
  distribution : DistInfo
  kernel : String
  cpu : CpuRecord
  memory_gib : Option ℚ
  os_system : String
  os_version : String
deriving Repr, DecidableEq

/-- The body of `get_cpu_stat` after `_parse_proc_cpuinfo` succeeded on
`lines`: defaults, the sysfs topology fallback guarded by
`if not stats["cpu"]["physical_cores"]`, the cpufreq overwrite, the
distribution and memory readers. -/
def buildStats (env : Env) (lines : List String) : Stats :=
  let ci := parseProcCpuinfo lines
  let kernel := match env.kernelRelease with | some k => k | none => "Unknown"
  let topo := cpuTopologyFromSysfs env.topology
  let phys : Int :=
    if ci.physical_cores = 0 then
      (if (topo : Int) ≠ 0 then (topo : Int) else ci.physical_cores)
    else ci.physical_cores
  let freq := cpufreqFromSysfs env.cpufreqPolicy
  let cur := match freq.cur with | some c => some c | none => ci.frequency_mhz_cur
  let mx := match freq.max with | some m => some m | none => none
  { distribution := detectDistribution env.lib env.osRelease,
    kernel := kernel,
    cpu := { vendor := ci.vendor, model := ci.model,
             logical_cores := ci.logical_cores, physical_cores := phys,
             cache_size := ci.cache_size, frequency_mhz_cur := cur,
             frequency_mhz_max := mx, cpufreq_policy := freq.policy },
    memory_gib := memGib env.meminfoFirstLine,
    os_system := env.osSystem, os_version := env.osVersion }

/-- `get_cpu_stat`: `Except.error 1` is the `sys.exit(1)` taken when
`/proc/cpuinfo` cannot be opened. -/
def getCpuStat (env : Env) : Except Nat Stats :=
  match env.cpuinfo with
  | none => Except.error 1
  | some lines => Except.ok (buildStats env lines)

/-! ## Spec-side definitions, written from the specification's words, for the
claims that compare the code against an independent reading. -/

/-- Spec reading for the logical-core count: a line counts exactly when it
contains a separator and its stripped key is `processor`. -/
def isProcessorKey (l : String) : Bool :=
  match lineKV l with
  | some kv => kv.1 == "processor"
  | none => false

/-- Spec reading: the number of processor-index lines. -/
def processorLineCount (lines : List String) : Nat :=
  (lines.filter isProcessorKey).length

/-- Spec reading of the package scan: track the current package id
(reset by a malformed package-id line), and record a package's core count
the first time only. -/
def specPkgStep (s : Option Int × List (Int × Int)) (l : String) :
    Option Int × List (Int × Int) :=
  match lineKV l with
  | none => s
  | some kv =>
    if kv.1 = "physical id" then (pyInt? kv.2, s.2)
    else if kv.1 = "cpu cores" then
      match s.1 with
      | none => s
      | some p =>
        if lookupSock p s.2 = none then
          match pyInt? kv.2 with
          | some n => (s.1, s.2 ++ [(p, n)])
          | none => s
        else s
    else s

/-- Spec reading: the package-id → core-count mapping produced by a scan. -/
def specPkgMap (lines : List String) : List (Int × Int) :=
  (lines.foldl specPkgStep (none, [])).2

/-- Spec reading for the topology fallback: the valid `(package, core)` pair
of an entry, skipping entries missing either identifier. -/
def pairOf (e : TopoEntry) : Option (Int × Int) :=
  match e with
  | (some pkg, some core) => some (pkg, core)
  | _ => none

/-- The value carried by a line when it parses and has key `key`.
(Moved before `lastPhysIdVal`, which uses it.) -/
def keyVal (key : String) (l : String) : Option String :=
  match lineKV l with
  | some kv => if kv.1 = key then some kv.2 else none
  | none => none

/-- Spec reading: the value of the last package-id line of the input
(the "most recent preceding package-id line" for anything appended next). -/
def lastPhysIdVal (lines : List String) : Option String :=
  lines.reverse.findSome? (keyVal "physical id")

/-- The value of the first occurrence of `key` whose value is not the
literal `Unknown` (the capture the first-seen-wins scan actually keeps). -/
def firstNonUnknown (key : String) : List String → Option String
  | [] => none
  | l :: ls =>
    match lineKV l with
    | some kv =>
      if kv.1 = key ∧ kv.2 ≠ "Unknown" then some kv.2 else firstNonUnknown key ls
    | none => firstNonUnknown key ls

/-- `m` consecutive copies of a block of lines. -/
def repBlocks (m : Nat) (blk : List String) : List String :=
  match m with
  | 0 => []
  | n + 1 => blk ++ repBlocks n blk

/-- The value an os-release line contributes for `PRETTY_NAME`. -/
def prettyVal (l : String) : Option String :=
  match splitFirstOn '=' (pyStripChars l.toList) with
  | some (k, v) =>
    if String.mk k = "PRETTY_NAME" then some (String.mk (stripQuoteChars (pyStripChars v)))
    else none
  | none => none

/-- The value an os-release line contributes for `NAME`. -/
def nameVal (l : String) : Option String :=
  match splitFirstOn '=' (pyStripChars l.toList) with
  | some (k, v) =>
    if String.mk k = "NAME" then some (String.mk (stripQuoteChars (pyStripChars v)))
    else none
  | none => none

/-- The value an os-release line contributes for `VERSION_ID`. -/
def versionVal (l : String) : Option String :=
  match splitFirstOn '=' (pyStripChars l.toList) with
  | some (k, v) =>
    if String.mk k = "VERSION_ID" then some (String.mk (stripQuoteChars (pyStripChars v)))
    else none
  | none => none

/-! ## Scan-state lemmas for `_parse_proc_cpuinfo`. -/

set_option maxHeartbeats 1000000 in
theorem procLine_logical (st : ParseState) (l : String) :
    (procLine st l).logical_cores
      = st.logical_cores + (if isProcessorKey l then 1 else 0) := by
  unfold procLine isProcessorKey
  cases h : lineKV l with
  | none => simp
  | some kv =>
    simp only [beq_iff_eq]
    cases hcs : st.current_socket with
    | none => split_ifs <;> simp_all
    | some cs =>
      cases hn : pyInt? kv.2 with
      | none => split_ifs <;> simp_all
      | some n => split_ifs <;> (try simp_all) <;> (split <;> rfl)

theorem foldl_logical (lines : List String) : ∀ st : ParseState,
    (lines.foldl procLine st).logical_cores
      = st.logical_cores + processorLineCount lines := by
  induction lines with
  | nil => intro st; simp [processorLineCount]
  | cons l ls ih =>
    intro st
    simp only [List.foldl_cons, ih, procLine_logical, processorLineCount, List.filter_cons]
    cases h : isProcessorKey l <;> simp [h, processorLineCount] <;> omega

/-- C1: for every descriptor input, `logical_cores` equals the number of
separator-carrying lines whose key is `processor`, whatever their values;
no other field enters the count. -/
theorem logical_cores_counts_processor_lines (lines : List String) :
    (parseProcCpuinfo lines).logical_cores = processorLineCount lines := by
  unfold parseProcCpuinfo
  simp [foldl_logical, initState]

set_option maxHeartbeats 1000000 in
theorem procLine_pkg (st : ParseState) (l : String) :
    ((procLine st l).current_socket, (procLine st l).sockets)
      = specPkgStep (st.current_socket, st.sockets) l := by
  unfold procLine specPkgStep
  cases h : lineKV l with
  | none => simp
  | some kv =>
    dsimp only
    cases hcs : st.current_socket with
    | none => dsimp only; split_ifs <;> simp_all
    | some cs =>
      cases hn : pyInt? kv.2 with
      | none => dsimp only; split_ifs <;> simp_all
      | some n => dsimp only; split_ifs <;> simp_all

theorem foldl_pkg (lines : List String) : ∀ st : ParseState,
    ((lines.foldl procLine st).current_socket, (lines.foldl procLine st).sockets)
      = lines.foldl specPkgStep (st.current_socket, st.sockets) := by
  induction lines with
  | nil => intro st; rfl
  | cons l ls ih =>
    intro st
    simp only [List.foldl_cons]
    rw [ih (procLine st l), procLine_pkg]

theorem sockets_eq_specPkgMap (lines : List String) :
    (lines.foldl procLine initState).sockets = specPkgMap lines :=
  congrArg Prod.snd (foldl_pkg lines initState)

theorem current_socket_eq (lines : List String) :
    (lines.foldl procLine initState).current_socket = (lines.foldl specPkgStep (none, [])).1 :=
  congrArg Prod.fst (foldl_pkg lines initState)

theorem physical_cores_eq_sum_specPkgMap (lines : List String) :
    (parseProcCpuinfo lines).physical_cores = sumVals (specPkgMap lines) := by
  unfold parseProcCpuinfo
  simp only [sockets_eq_specPkgMap]
  by_cases h : (specPkgMap lines).isEmpty
  · rw [List.isEmpty_iff] at h
    simp [h, sumVals]
  · simp [h]

theorem lookupSock_eq_none_iff (p : Int) (xs : List (Int × Int)) :
    lookupSock p xs = none ↔ p ∉ xs.map Prod.fst := by
  induction xs with
  | nil => simp [lookupSock]
  | cons x xs ih =>
    cases x with
    | mk q n =>
      by_cases hq : q = p
      · simp [lookupSock, hq]
      · simp [lookupSock, hq, ih, Ne.symm hq]

theorem lookupSock_append (p : Int) (xs ys : List (Int × Int)) :
    lookupSock p (xs ++ ys)
      = match lookupSock p xs with
        | some v => some v
        | none => lookupSock p ys := by
  induction xs with
  | nil => simp [lookupSock]
  | cons x xs ih =>
    cases x with
    | mk q n =>
      by_cases hq : q = p <;> simp [lookupSock, hq, ih]

theorem specPkgStep_keys_nodup (s : Option Int × List (Int × Int)) (l : String)
    (h : (s.2.map Prod.fst).Nodup) : (((specPkgStep s l).2).map Prod.fst).Nodup := by
  unfold specPkgStep
  cases hkv : lineKV l with
  | none => exact h
  | some kv =>
    dsimp only
    split_ifs with h1 h2
    · exact h
    · cases hc : s.1 with
      | none => exact h
      | some p =>
        cases hn : pyInt? kv.2 with
        | none =>
          by_cases hl : lookupSock p s.2 = none <;> simp [hl, h]
        | some n =>
          by_cases hl : lookupSock p s.2 = none
          · have hp := (lookupSock_eq_none_iff p s.2).mp hl
            simp only [if_pos hl]
            simp only [List.map_append, List.nodup_append, List.map_cons, List.map_nil]
            refine ⟨h, by simp, ?_⟩
            intro a ha hb
            simp only [List.mem_cons, List.not_mem_nil, or_false] at hb
            exact hp (hb ▸ ha)
          · simp [hl, h]
    · exact h

theorem specPkgMap_keys_nodup_aux (lines : List String) :
    ∀ s : Option Int × List (Int × Int), (s.2.map Prod.fst).Nodup →
      (((lines.foldl specPkgStep s).2).map Prod.fst).Nodup := by
  induction lines with
  | nil => intro s hs; exact hs
  | cons l ls ih =>
    intro s hs
    simp only [List.foldl_cons]
    exact ih _ (specPkgStep_keys_nodup s l hs)

theorem specPkgMap_keys_nodup (lines : List String) :
    ((specPkgMap lines).map Prod.fst).Nodup :=
  specPkgMap_keys_nodup_aux lines (none, []) (by simp)

theorem specPkgStep_other (s : Option Int × List (Int × Int)) (l : String)
    (kv : String × String) (h : lineKV l = some kv)
    (h1 : kv.1 ≠ "physical id") (h2 : kv.1 ≠ "cpu cores") :
    specPkgStep s l = s := by
  unfold specPkgStep
  rw [h]
  simp [h1, h2]

theorem specPkgStep_phys (s : Option Int × List (Int × Int)) (l t : String)
    (h : lineKV l = some ("physical id", t)) :
    specPkgStep s l = (pyInt? t, s.2) := by
  unfold specPkgStep
  rw [h]
  dsimp only
  rw [if_pos rfl]

theorem specPkgStep_cores (a : Int) (acc : List (Int × Int)) (l u : String) (n : Int)
    (h : lineKV l = some ("cpu cores", u)) (hn : pyInt? u = some n) :
    specPkgStep (some a, acc) l
      = (some a, if lookupSock a acc = none then acc ++ [(a, n)] else acc) := by
  unfold specPkgStep
  rw [h]
  dsimp only
  rw [if_neg (by simp), if_pos rfl]
  by_cases hl : lookupSock a acc = none <;> simp [hl, hn]

theorem specPkg_block (c : Option Int) (acc : List (Int × Int))
    (lproc lp lc : String) (w t u : String) (a n : Int)
    (hproc : lineKV lproc = some ("processor", w))
    (hp : lineKV lp = some ("physical id", t)) (ha : pyInt? t = some a)
    (hc : lineKV lc = some ("cpu cores", u)) (hn : pyInt? u = some n) :
    List.foldl specPkgStep (c, acc) [lproc, lp, lc]
      = (some a, if lookupSock a acc = none then acc ++ [(a, n)] else acc) := by
  simp only [List.foldl_cons, List.foldl_nil]
  rw [specPkgStep_other (c, acc) lproc ("processor", w) hproc (by simp) (by simp),
      specPkgStep_phys (c, acc) lp t hp]
  dsimp only
  rw [ha, specPkgStep_cores a acc lc u n hc hn]

theorem repBlocks_succ (m : Nat) (blk : List String) :
    repBlocks (m + 1) blk = blk ++ repBlocks m blk := rfl

theorem specPkg_rep_recorded (blk : List String) (a : Int)
    (hblk : ∀ (c : Option Int) (acc : List (Int × Int)), lookupSock a acc ≠ none →
      List.foldl specPkgStep (c, acc) blk = (some a, acc)) :
    ∀ (m : Nat) (acc : List (Int × Int)), lookupSock a acc ≠ none →
      List.foldl specPkgStep (some a, acc) (repBlocks m blk) = (some a, acc) := by
  intro m
  induction m with
  | zero => intro acc _; rfl
  | succ k ih =>
    intro acc hrec
    show List.foldl specPkgStep (some a, acc) (blk ++ repBlocks k blk) = _
    rw [List.foldl_append, hblk (some a) acc hrec, ih acc hrec]

theorem specPkg_two_packages
    (lproc lp1 lc1 lp2 lc2 : String) (w t1 u1 t2 u2 : String)
    (a1 a2 n1 n2 : Int) (k1 k2 : Nat)
    (hproc : lineKV lproc = some ("processor", w))
    (hp1 : lineKV lp1 = some ("physical id", t1)) (ha1 : pyInt? t1 = some a1)
    (hc1 : lineKV lc1 = some ("cpu cores", u1)) (hn1 : pyInt? u1 = some n1)
    (hp2 : lineKV lp2 = some ("physical id", t2)) (ha2 : pyInt? t2 = some a2)
    (hc2 : lineKV lc2 = some ("cpu cores", u2)) (hn2 : pyInt? u2 = some n2)
    (hne : a1 ≠ a2) :
    List.foldl specPkgStep (none, [])
        (repBlocks (k1 + 1) [lproc, lp1, lc1] ++ repBlocks (k2 + 1) [lproc, lp2, lc2])
      = (some a2, [(a1, n1), (a2, n2)]) := by
  have hb1 : ∀ (c : Option Int) (acc : List (Int × Int)), lookupSock a1 acc ≠ none →
      List.foldl specPkgStep (c, acc) [lproc, lp1, lc1] = (some a1, acc) := by
    intro c acc hrec
    rw [specPkg_block c acc lproc lp1 lc1 w t1 u1 a1 n1 hproc hp1 ha1 hc1 hn1,
      if_neg hrec]
  have hb2 : ∀ (c : Option Int) (acc : List (Int × Int)), lookupSock a2 acc ≠ none →
      List.foldl specPkgStep (c, acc) [lproc, lp2, lc2] = (some a2, acc) := by
    intro c acc hrec
    rw [specPkg_block c acc lproc lp2 lc2 w t2 u2 a2 n2 hproc hp2 ha2 hc2 hn2,
      if_neg hrec]
  have h1 : List.foldl specPkgStep (none, []) [lproc, lp1, lc1] = (some a1, [(a1, n1)]) := by
    rw [specPkg_block none [] lproc lp1 lc1 w t1 u1 a1 n1 hproc hp1 ha1 hc1 hn1]
    rfl
  have h2 : List.foldl specPkgStep (none, []) (repBlocks (k1 + 1) [lproc, lp1, lc1])
      = (some a1, [(a1, n1)]) := by
    rw [repBlocks_succ, List.foldl_append, h1,
      specPkg_rep_recorded [lproc, lp1, lc1] a1 hb1 k1 [(a1, n1)] (by simp [lookupSock])]
  have h3 : List.foldl specPkgStep (some a1, [(a1, n1)]) [lproc, lp2, lc2]
      = (some a2, [(a1, n1), (a2, n2)]) := by
    rw [specPkg_block (some a1) [(a1, n1)] lproc lp2 lc2 w t2 u2 a2 n2 hproc hp2 ha2 hc2 hn2]
    rw [if_pos (by simp [lookupSock, hne])]
    rfl
  have h4 : List.foldl specPkgStep (some a1, [(a1, n1)]) (repBlocks (k2 + 1) [lproc, lp2, lc2])
      = (some a2, [(a1, n1), (a2, n2)]) := by
    rw [repBlocks_succ, List.foldl_append, h3,
      specPkg_rep_recorded [lproc, lp2, lc2] a2 hb2 k2 [(a1, n1), (a2, n2)] (by simp [lookupSock, hne])]
  rw [List.foldl_append, h2, h4]

/-- C2: for every descriptor input, `physical_cores` is the sum, over the
distinct package ids recorded by the scan, of the core-count value recorded
the first time that package id was seen (repeated core-count lines for an
already-recorded package id are ignored); the recorded package ids are
pairwise distinct; if no package mapping is recorded the result is `0`; and
for two packages reporting `n1` and `n2` cores, each block repeated once per
logical processor, the result is `n1 + n2`. -/
theorem physical_cores_first_seen_package_sum
    (lproc lp1 lc1 lp2 lc2 : String) (w t1 u1 t2 u2 : String)
    (a1 a2 n1 n2 : Int) (m1 m2 : Nat)
    (hproc : lineKV lproc = some ("processor", w))
    (hp1 : lineKV lp1 = some ("physical id", t1)) (ha1 : pyInt? t1 = some a1)
    (hc1 : lineKV lc1 = some ("cpu cores", u1)) (hn1 : pyInt? u1 = some n1)
    (hp2 : lineKV lp2 = some ("physical id", t2)) (ha2 : pyInt? t2 = some a2)
    (hc2 : lineKV lc2 = some ("cpu cores", u2)) (hn2 : pyInt? u2 = some n2)
    (hne : a1 ≠ a2) (hm1 : 1 ≤ m1) (hm2 : 1 ≤ m2) :
    (∀ lines, (parseProcCpuinfo lines).physical_cores = sumVals (specPkgMap lines))
    ∧ (∀ lines, ((specPkgMap lines).map Prod.fst).Nodup)
    ∧ (∀ lines, specPkgMap lines = [] → (parseProcCpuinfo lines).physical_cores = 0)
    ∧ (parseProcCpuinfo
          (repBlocks m1 [lproc, lp1, lc1] ++ repBlocks m2 [lproc, lp2, lc2])).physical_cores
        = n1 + n2 := by
  refine ⟨physical_cores_eq_sum_specPkgMap, specPkgMap_keys_nodup, ?_, ?_⟩
  · intro lines hmap
    rw [physical_cores_eq_sum_specPkgMap, hmap]
    rfl
  · obtain ⟨k1, rfl⟩ : ∃ k, m1 = k + 1 := ⟨m1 - 1, by omega⟩
    obtain ⟨k2, rfl⟩ : ∃ k, m2 = k + 1 := ⟨m2 - 1, by omega⟩
    rw [physical_cores_eq_sum_specPkgMap]
    unfold specPkgMap
    rw [specPkg_two_packages lproc lp1 lc1 lp2 lc2 w t1 u1 t2 u2 a1 a2 n1 n2 k1 k2
      hproc hp1 ha1 hc1 hn1 hp2 ha2 hc2 hn2 hne]
    simp [sumVals]

/-- Witness for C2 at a concrete two-package input: package 0 reports 4
cores over two processor blocks, package 1 reports 2 cores over three
blocks; the parser reports 4 + 2 physical cores. -/
theorem physical_cores_first_seen_package_sum_witness :
    (parseProcCpuinfo
        (repBlocks 2 ["processor\t: 0", "physical id\t: 0", "cpu cores\t: 4"]
          ++ repBlocks 3 ["processor\t: 0", "physical id\t: 1", "cpu cores\t: 2"])).physical_cores
      = 4 + 2 :=
  (physical_cores_first_seen_package_sum
    "processor\t: 0" "physical id\t: 0" "cpu cores\t: 4"
    "physical id\t: 1" "cpu cores\t: 2" "0" "0" "4" "1" "2"
    0 1 4 2 2 3
    (by decide) (by decide) (by decide) (by decide) (by decide)
    (by decide) (by decide) (by decide) (by decide)
    (by decide) (by decide) (by decide)).2.2.2

theorem findSome?_append_match {α β : Type} (f : α → Option β) (xs ys : List α) :
    List.findSome? f (xs ++ ys)
      = match List.findSome? f xs with
        | some v => some v
        | none => List.findSome? f ys := by
  induction xs with
  | nil => simp
  | cons x xs ih =>
    cases hf : f x <;> simp [List.findSome?_cons, hf, ih]

theorem lastPhysIdVal_cons (l : String) (ls : List String) :
    lastPhysIdVal (l :: ls)
      = match lastPhysIdVal ls with
        | some v => some v
        | none => keyVal "physical id" l := by
  unfold lastPhysIdVal
  rw [List.reverse_cons, findSome?_append_match]
  cases h : List.findSome? (keyVal "physical id") ls.reverse
  · cases hk : keyVal "physical id" l <;> simp [List.findSome?_cons, hk]
  · simp

theorem specPkgStep_fst (s : Option Int × List (Int × Int)) (l : String) :
    (specPkgStep s l).1
      = match keyVal "physical id" l with
        | some t => pyInt? t
        | none => s.1 := by
  unfold specPkgStep keyVal
  cases hkv : lineKV l with
  | none => rfl
  | some kv =>
    dsimp only
    split_ifs with h1 h2
    · rfl
    · cases hc : s.1 with
      | none => exact hc
      | some p =>
        cases hn : pyInt? kv.2 with
        | none => simp [hc]
        | some n => by_cases hl : lookupSock p s.2 = none <;> simp [hl, hc]
    · rfl

theorem foldl_specPkg_fst (lines : List String) :
    ∀ s : Option Int × List (Int × Int),
      (List.foldl specPkgStep s lines).1
        = match lastPhysIdVal lines with
          | some t => pyInt? t
          | none => s.1 := by
  induction lines with
  | nil => intro s; simp [lastPhysIdVal]
  | cons l ls ih =>
    intro s
    simp only [List.foldl_cons]
    rw [ih (specPkgStep s l), lastPhysIdVal_cons, specPkgStep_fst]
    cases h : lastPhysIdVal ls <;> cases hk : keyVal "physical id" l <;> simp

/-- C10: a per-package core-count line contributes to the mapping only when
the most recent preceding package-id line parsed as an integer: with no
current package the line is a no-op; a package-id line always resets the
current package to the parse of its value (`none` when malformed); the
current package after a scan is the parse of the last package-id value; and
a concrete input whose core-count lines sit before any package-id line or
after a non-numeric one yields no physical cores. -/
theorem core_count_requires_valid_package
    (st : ParseState) (l v : String) (lines : List String)
    (hl : lineKV l = some ("cpu cores", v)) :
    (st.current_socket = none → procLine st l = st)
    ∧ (∀ l' t, lineKV l' = some ("physical id", t) →
        (procLine st l').current_socket = pyInt? t)
    ∧ ((lines.foldl procLine initState).current_socket
        = match lastPhysIdVal lines with
          | some t => pyInt? t
          | none => none)
    ∧ (parseProcCpuinfo ["cpu cores\t: 4", "physical id\t: abc", "cpu cores\t: 8"]).physical_cores
        = 0 := by
  refine ⟨?_, ?_, ?_, by decide⟩
  · intro hcs
    unfold procLine
    rw [hl]
    dsimp only
    simp [hcs]
  · intro l' t hl'
    unfold procLine
    rw [hl']
    dsimp only
    simp
  · rw [current_socket_eq, foldl_specPkg_fst]

/-- Witness for C10: with no package id seen yet, a core-count line leaves
the whole scan state unchanged. -/
theorem core_count_requires_valid_package_witness :
    procLine initState "cpu cores\t: 4" = initState :=
  (core_count_requires_valid_package initState "cpu cores\t: 4" "4" [] (by decide)).1 rfl

/-! ## Topology fallback lemmas. -/

theorem topo_foldl_spec (entries : List TopoEntry) :
    ∀ acc : List (Int × Int), acc.Nodup →
      (entries.foldl topoStep acc).Nodup ∧
        (entries.foldl topoStep acc).toFinset
          = acc.toFinset ∪ (entries.filterMap pairOf).toFinset := by
  induction entries with
  | nil => intro acc h; simp [h]
  | cons e es ih =>
    intro acc hacc
    simp only [List.foldl_cons, List.filterMap_cons]
    cases e with
    | mk po co =>
      cases po with
      | none => simpa [topoStep, pairOf] using ih acc hacc
      | some p =>
        cases co with
        | none => simpa [topoStep, pairOf] using ih acc hacc
        | some c =>
          simp only [topoStep, pairOf, insertPair]
          by_cases hmem : (p, c) ∈ acc
          · rw [if_pos hmem]
            obtain ⟨h1, h2⟩ := ih acc hacc
            refine ⟨h1, ?_⟩
            rw [h2, List.toFinset_cons, Finset.union_insert,
              Finset.insert_eq_self.mpr
                (Finset.mem_union_left _ (List.mem_toFinset.mpr hmem))]
          · rw [if_neg hmem]
            have hnd : (acc ++ [(p, c)]).Nodup := by
              rw [List.nodup_append]
              exact ⟨hacc, List.nodup_singleton _, by
                intro a ha hb
                simp only [List.mem_singleton] at hb
                exact hmem (hb ▸ ha)⟩
            obtain ⟨h1, h2⟩ := ih (acc ++ [(p, c)]) hnd
            refine ⟨h1, ?_⟩
            rw [h2, List.toFinset_append]
            ext x
            simp only [Finset.mem_union, List.mem_toFinset, List.mem_singleton,
              List.mem_cons]
            tauto

theorem cpuTopology_card (entries : List TopoEntry) :
    cpuTopologyFromSysfs entries = ((entries.filterMap pairOf).toFinset).card := by
  obtain ⟨hnd, hts⟩ := topo_foldl_spec entries [] List.nodup_nil
  have hts' : (entries.foldl topoStep []).toFinset = (entries.filterMap pairOf).toFinset := by
    simpa using hts
  unfold cpuTopologyFromSysfs
  rw [← hts', List.toFinset_card_of_nodup hnd]
  by_cases h : (entries.foldl topoStep []).isEmpty
  · rw [List.isEmpty_iff] at h
    simp [h]
  · simp [h]

/-- C3: the sysfs topology fallback counts the distinct (package, core)
pairs across the per-processor topology entries, skipping entries missing
either identifier; the aggregator keeps the primary physical-core estimate
whenever it is non-zero (whatever the topology entries hold), overwrites it
only when the primary estimate is 0 and the fallback is non-zero, and leaves
0 — still producing a report — when both are 0. -/
theorem topology_fallback_spec (env : Env) (lines : List String) :
    ((parseProcCpuinfo lines).physical_cores ≠ 0 →
      (buildStats env lines).cpu.physical_cores = (parseProcCpuinfo lines).physical_cores)
    ∧ ((parseProcCpuinfo lines).physical_cores = 0 → cpuTopologyFromSysfs env.topology ≠ 0 →
      (buildStats env lines).cpu.physical_cores = (cpuTopologyFromSysfs env.topology : Int))
    ∧ ((parseProcCpuinfo lines).physical_cores = 0 → cpuTopologyFromSysfs env.topology = 0 →
      (buildStats env lines).cpu.physical_cores = 0)
    ∧ (∀ es : List TopoEntry,
        cpuTopologyFromSysfs es = ((es.filterMap pairOf).toFinset).card)
    ∧ (getCpuStat { env with cpuinfo := some lines }
        = Except.ok (buildStats { env with cpuinfo := some lines } lines)) := by
  refine ⟨?_, ?_, ?_, cpuTopology_card, rfl⟩
  · intro h
    unfold buildStats
    simp [h]
  · intro h ht
    unfold buildStats
    have ht' : (cpuTopologyFromSysfs env.topology : Int) ≠ 0 := by
      exact_mod_cast ht
    simp [h, ht']
  · intro h ht
    unfold buildStats
    simp [h, ht]

/-- Witness for C3: primary estimate 0 with two distinct (package, core)
pairs in the topology entries yields 2 physical cores. -/
theorem topology_fallback_spec_witness :
    (buildStats
        { cpuinfo := some [], topology := [(some 0, some 0), (some 0, some 1), (some 0, none)],
          cpufreqPolicy := none, meminfoFirstLine := none, lib := none, osRelease := none,
          kernelRelease := none, osSystem := "Linux", osVersion := "" } []).cpu.physical_cores
      = 2 :=
  (topology_fallback_spec
    { cpuinfo := some [], topology := [(some 0, some 0), (some 0, some 1), (some 0, none)],
      cpufreqPolicy := none, meminfoFirstLine := none, lib := none, osRelease := none,
      kernelRelease := none, osSystem := "Linux", osVersion := "" } []).2.1
    (by decide) (by decide)

/-- C4: when the cpufreq policy interface yields numeric values, the
reported current and max frequencies come from the policy interface (not the
per-processor sample), converted from kHz to MHz by dividing by 1000 and
rounding to 1 decimal (2400000 kHz gives exactly 2400.0 MHz); the
per-processor sample supplies current only when the policy yields no current
value, and max stays absent when the policy yields none (including when no
policy directory exists at all). -/
theorem freq_policy_precedence (env : Env) (lines : List String)
    (nm : String) (ck mxk : Option Int) :
    (env.cpufreqPolicy = some (nm, ck, mxk) →
      (∀ k, ck = some k →
        (buildStats env lines).cpu.frequency_mhz_cur = some (round1 ((k : ℚ) / 1000)))
      ∧ (∀ k, mxk = some k →
        (buildStats env lines).cpu.frequency_mhz_max = some (round1 ((k : ℚ) / 1000))))
    ∧ (round1 ((2400000 : ℚ) / 1000) = 2400)
    ∧ ((cpufreqFromSysfs env.cpufreqPolicy).cur = none →
      (buildStats env lines).cpu.frequency_mhz_cur = (parseProcCpuinfo lines).frequency_mhz_cur)
    ∧ ((cpufreqFromSysfs env.cpufreqPolicy).max = none →
      (buildStats env lines).cpu.frequency_mhz_max = none) := by
  refine ⟨?_, by norm_num [round1, halfEven], ?_, ?_⟩
  · intro hpol
    constructor
    · intro k hk
      subst hk
      unfold buildStats
      simp [cpufreqFromSysfs, khzToMhz, hpol]
    · intro k hk
      subst hk
      unfold buildStats
      simp [cpufreqFromSysfs, khzToMhz, hpol]
  · intro hcur
    unfold buildStats
    simp [hcur]
  · intro hmax
    unfold buildStats
    simp [hmax]

/-- Witness for C4: a policy reporting 2400000 kHz current frequency makes
the report carry the policy-derived value. -/
theorem freq_policy_precedence_witness :
    (buildStats
        { cpuinfo := some [], topology := [], cpufreqPolicy := some ("policy0", some 2400000, some 3000000),
          meminfoFirstLine := none, lib := none, osRelease := none,
          kernelRelease := none, osSystem := "Linux", osVersion := "" } []).cpu.frequency_mhz_cur
      = some (round1 ((2400000 : ℚ) / 1000)) :=
  ((freq_policy_precedence
    { cpuinfo := some [], topology := [], cpufreqPolicy := some ("policy0", some 2400000, some 3000000),
      meminfoFirstLine := none, lib := none, osRelease := none,
      kernelRelease := none, osSystem := "Linux", osVersion := "" } []
    "policy0" (some 2400000) (some 3000000)).1 rfl).1 2400000 rfl

/-- C5 counterexample: a totally empty (but openable) descriptor file does
not abort the run — `get_cpu_stat` still returns a report, contradicting the
claim that an empty descriptor is fatal. -/
theorem empty_cpuinfo_not_fatal :
    (getCpuStat
      { cpuinfo := some [], topology := [], cpufreqPolicy := none,
        meminfoFirstLine := none, lib := none, osRelease := none,
        kernelRelease := none, osSystem := "Linux", osVersion := "" }).isOk = true := rfl

/-- C5 (amended): only failure to open the primary descriptor file aborts
the run — a diagnostic is printed and the exit code is 1; an empty but
openable descriptor and every other missing or malformed source degrade to
defaults and still produce a report. -/
theorem fatal_only_when_unopenable (env : Env) (lines : List String) :
    (env.cpuinfo = none → getCpuStat env = Except.error 1)
    ∧ (env.cpuinfo = some lines → getCpuStat env = Except.ok (buildStats env lines)) := by
  constructor <;> intro h <;> simp [getCpuStat, h]

/-- Witness for C5 (amended): an unopenable descriptor interface exits with
code 1. -/
theorem fatal_only_when_unopenable_witness :
    getCpuStat
      { cpuinfo := none, topology := [], cpufreqPolicy := none,
        meminfoFirstLine := none, lib := none, osRelease := none,
        kernelRelease := none, osSystem := "Linux", osVersion := "" } = Except.error 1 :=
  (fatal_only_when_unopenable
    { cpuinfo := none, topology := [], cpufreqPolicy := none,
      meminfoFirstLine := none, lib := none, osRelease := none,
      kernelRelease := none, osSystem := "Linux", osVersion := "" } []).1 rfl

/-- C7: the memory reader parses the first line of the memory summary: a
read failure, an empty or sub-two-token line, or a non-numeric second token
all give an absent result rather than an exception; otherwise the result is
the second token divided by 1048576 and rounded to 2 decimals, so
16777216 kB is exactly 16 GiB and 1048576 kB exactly 1 GiB. -/
theorem mem_gib_spec (s : String) (a t : String) (rest : List String)
    (hsplit : wsSplit s = a :: t :: rest) :
    (memGib none = none)
    ∧ (∀ s', (wsSplit s').length < 2 → memGib (some s') = none)
    ∧ (pyInt? t = none → memGib (some s) = none)
    ∧ (∀ n, pyInt? t = some n → memGib (some s) = some (round2 ((n : ℚ) / 1048576)))
    ∧ (memGib (some "MemTotal:       16777216 kB") = some 16)
    ∧ (memGib (some "MemTotal:       1048576 kB") = some 1) := by
  have hmem16 : memGib (some "MemTotal:       16777216 kB") = some 16 := by
    have h1 : wsSplit "MemTotal:       16777216 kB" = ["MemTotal:", "16777216", "kB"] := by
      decide
    have h2 : pyInt? "16777216" = some 16777216 := by decide
    unfold memGib
    dsimp only
    rw [if_neg (by decide), h1]
    dsimp only
    rw [h2]
    dsimp only
    congr 1
    norm_num [round2, halfEven]
  have hmem1 : memGib (some "MemTotal:       1048576 kB") = some 1 := by
    have h1 : wsSplit "MemTotal:       1048576 kB" = ["MemTotal:", "1048576", "kB"] := by
      decide
    have h2 : pyInt? "1048576" = some 1048576 := by decide
    unfold memGib
    dsimp only
    rw [if_neg (by decide), h1]
    dsimp only
    rw [h2]
    dsimp only
    congr 1
    norm_num [round2, halfEven]
  refine ⟨rfl, ?_, ?_, ?_, hmem16, hmem1⟩
  · intro s' hlen
    unfold memGib
    dsimp only
    by_cases hs : s' = ""
    · simp [hs]
    · rw [if_neg hs]
      cases h2 : wsSplit s' with
      | nil => rfl
      | cons x xs =>
        cases xs with
        | nil => rfl
        | cons y ys =>
          rw [h2] at hlen
          simp only [List.length_cons] at hlen
          omega
  · intro hint
    unfold memGib
    dsimp only
    by_cases hs : s = ""
    · simp [hs]
    · rw [if_neg hs, hsplit]
      dsimp only
      rw [hint]
  · intro n hint
    unfold memGib
    dsimp only
    have hs : s ≠ "" := by
      intro hs0
      rw [hs0] at hsplit
      have hempty : wsSplit "" = [] := rfl
      rw [hempty] at hsplit
      exact absurd hsplit (by simp)
    rw [if_neg hs, hsplit]
    dsimp only
    rw [hint]

/-- Witness for C7 at the exact 16 GiB boundary line. -/
theorem mem_gib_spec_witness :
    memGib (some "MemTotal:       16777216 kB") = some 16 :=
  (mem_gib_spec "MemTotal:       16777216 kB" "MemTotal:" "16777216" ["kB"]
    (by decide)).2.2.2.2.1

/-! ## First-seen capture of vendor, model and cache size. -/

set_option maxHeartbeats 1000000 in
theorem procLine_vendor (st : ParseState) (l : String) :
    (procLine st l).vendor_id
      = match keyVal "vendor_id" l with
        | some v => if st.vendor_id = "Unknown" then v else st.vendor_id
        | none => st.vendor_id := by
  unfold procLine keyVal
  cases h : lineKV l with
  | none => rfl
  | some kv =>
    dsimp only
    cases hcs : st.current_socket with
    | none => split_ifs <;> simp_all
    | some cs =>
      cases hn : pyInt? kv.2 with
      | none => split_ifs <;> simp_all
      | some n =>
        split_ifs <;> (try simp_all) <;>
          (split <;> first
            | rfl
            | assumption)

set_option maxHeartbeats 1000000 in
theorem procLine_model (st : ParseState) (l : String) :
    (procLine st l).model_name
      = match keyVal "model name" l with
        | some v => if st.model_name = "Unknown" then v else st.model_name
        | none => st.model_name := by
  unfold procLine keyVal
  cases h : lineKV l with
  | none => rfl
  | some kv =>
    dsimp only
    cases hcs : st.current_socket with
    | none => split_ifs <;> simp_all
    | some cs =>
      cases hn : pyInt? kv.2 with
      | none => split_ifs <;> simp_all
      | some n =>
        split_ifs <;> (try simp_all) <;>
          (split <;> first
            | rfl
            | assumption)

set_option maxHeartbeats 1000000 in
theorem procLine_cache (st : ParseState) (l : String) :
    (procLine st l).cache_size
      = match keyVal "cache size" l with
        | some v => if st.cache_size = "Unknown" then v else st.cache_size
        | none => st.cache_size := by
  unfold procLine keyVal
  cases h : lineKV l with
  | none => rfl
  | some kv =>
    dsimp only
    cases hcs : st.current_socket with
    | none => split_ifs <;> simp_all
    | some cs =>
      cases hn : pyInt? kv.2 with
      | none => split_ifs <;> simp_all
      | some n =>
        split_ifs <;> (try simp_all) <;>
          (split <;> first
            | rfl
            | assumption)

theorem foldl_vendor_keep (lines : List String) : ∀ st : ParseState,
    st.vendor_id ≠ "Unknown" → (lines.foldl procLine st).vendor_id = st.vendor_id := by
  induction lines with
  | nil => intro st _; rfl
  | cons l ls ih =>
    intro st h
    simp only [List.foldl_cons]
    have hv : (procLine st l).vendor_id = st.vendor_id := by
      rw [procLine_vendor]
      cases keyVal "vendor_id" l <;> simp [h]
    rw [ih (procLine st l) (by rw [hv]; exact h), hv]

theorem foldl_vendor (lines : List String) : ∀ st : ParseState,
    st.vendor_id = "Unknown" →
      (lines.foldl procLine st).vendor_id
        = (firstNonUnknown "vendor_id" lines).getD "Unknown" := by
  induction lines with
  | nil => intro st h; simpa [firstNonUnknown] using h
  | cons l ls ih =>
    intro st h
    simp only [List.foldl_cons]
    unfold firstNonUnknown
    cases hkv : lineKV l with
    | none =>
      have hv : (procLine st l).vendor_id = "Unknown" := by
        rw [procLine_vendor]
        unfold keyVal
        rw [hkv]
        exact h
      exact ih _ hv
    | some kv =>
      by_cases h1 : kv.1 = "vendor_id" ∧ kv.2 ≠ "Unknown"
      · have hv : (procLine st l).vendor_id = kv.2 := by
          rw [procLine_vendor]
          unfold keyVal
          rw [hkv]
          simp [h1.1, h]
        rw [foldl_vendor_keep ls _ (by rw [hv]; exact h1.2), hv]
        dsimp only
        rw [if_pos h1]
        rfl
      · have hv : (procLine st l).vendor_id = "Unknown" := by
          rw [procLine_vendor]
          unfold keyVal
          rw [hkv]
          by_cases hk : kv.1 = "vendor_id"
          · have h2 : kv.2 = "Unknown" := by
              by_contra hne
              exact h1 ⟨hk, hne⟩
            simp [hk, h, h2]
          · simp [hk, h]
        rw [ih _ hv]
        dsimp only
        rw [if_neg h1]

theorem foldl_model_keep (lines : List String) : ∀ st : ParseState,
    st.model_name ≠ "Unknown" → (lines.foldl procLine st).model_name = st.model_name := by
  induction lines with
  | nil => intro st _; rfl
  | cons l ls ih =>
    intro st h
    simp only [List.foldl_cons]
    have hv : (procLine st l).model_name = st.model_name := by
      rw [procLine_model]
      cases keyVal "model name" l <;> simp [h]
    rw [ih (procLine st l) (by rw [hv]; exact h), hv]

theorem foldl_model (lines : List String) : ∀ st : ParseState,
    st.model_name = "Unknown" →
      (lines.foldl procLine st).model_name
        = (firstNonUnknown "model name" lines).getD "Unknown" := by
  induction lines with
  | nil => intro st h; simpa [firstNonUnknown] using h
  | cons l ls ih =>
    intro st h
    simp only [List.foldl_cons]
    unfold firstNonUnknown
    cases hkv : lineKV l with
    | none =>
      have hv : (procLine st l).model_name = "Unknown" := by
        rw [procLine_model]
        unfold keyVal
        rw [hkv]
        exact h
      exact ih _ hv
    | some kv =>
      by_cases h1 : kv.1 = "model name" ∧ kv.2 ≠ "Unknown"
      · have hv : (procLine st l).model_name = kv.2 := by
          rw [procLine_model]
          unfold keyVal
          rw [hkv]
          simp [h1.1, h]
        rw [foldl_model_keep ls _ (by rw [hv]; exact h1.2), hv]
        dsimp only
        rw [if_pos h1]
        rfl
      · have hv : (procLine st l).model_name = "Unknown" := by
          rw [procLine_model]
          unfold keyVal
          rw [hkv]
          by_cases hk : kv.1 = "model name"
          · have h2 : kv.2 = "Unknown" := by
              by_contra hne
              exact h1 ⟨hk, hne⟩
            simp [hk, h, h2]
          · simp [hk, h]
        rw [ih _ hv]
        dsimp only
        rw [if_neg h1]

theorem foldl_cache_keep (lines : List String) : ∀ st : ParseState,
    st.cache_size ≠ "Unknown" → (lines.foldl procLine st).cache_size = st.cache_size := by
  induction lines with
  | nil => intro st _; rfl
  | cons l ls ih =>
    intro st h
    simp only [List.foldl_cons]
    have hv : (procLine st l).cache_size = st.cache_size := by
      rw [procLine_cache]
      cases keyVal "cache size" l <;> simp [h]
    rw [ih (procLine st l) (by rw [hv]; exact h), hv]

theorem foldl_cache (lines : List String) : ∀ st : ParseState,
    st.cache_size = "Unknown" →
      (lines.foldl procLine st).cache_size
        = (firstNonUnknown "cache size" lines).getD "Unknown" := by
  induction lines with
  | nil => intro st h; simpa [firstNonUnknown] using h
  | cons l ls ih =>
    intro st h
    simp only [List.foldl_cons]
    unfold firstNonUnknown
    cases hkv : lineKV l with
    | none =>
      have hv : (procLine st l).cache_size = "Unknown" := by
        rw [procLine_cache]
        unfold keyVal
        rw [hkv]
        exact h
      exact ih _ hv
    | some kv =>
      by_cases h1 : kv.1 = "cache size" ∧ kv.2 ≠ "Unknown"
      · have hv : (procLine st l).cache_size = kv.2 := by
          rw [procLine_cache]
          unfold keyVal
          rw [hkv]
          simp [h1.1, h]
        rw [foldl_cache_keep ls _ (by rw [hv]; exact h1.2), hv]
        dsimp only
        rw [if_pos h1]
        rfl
      · have hv : (procLine st l).cache_size = "Unknown" := by
          rw [procLine_cache]
          unfold keyVal
          rw [hkv]
          by_cases hk : kv.1 = "cache size"
          · have h2 : kv.2 = "Unknown" := by
              by_contra hne
              exact h1 ⟨hk, hne⟩
            simp [hk, h, h2]
          · simp [hk, h]
        rw [ih _ hv]
        dsimp only
        rw [if_neg h1]

/-- C8 (amended): for vendor, model and cache size the scan keeps the first
occurrence of the key whose value differs from the literal "Unknown" — that
value may be empty — and ignores every later occurrence; a key with no such
occurrence reports "Unknown". -/
theorem first_capture_characterization (lines : List String) :
    ((parseProcCpuinfo lines).vendor = (firstNonUnknown "vendor_id" lines).getD "Unknown")
    ∧ ((parseProcCpuinfo lines).model = (firstNonUnknown "model name" lines).getD "Unknown")
    ∧ ((parseProcCpuinfo lines).cache_size
        = (firstNonUnknown "cache size" lines).getD "Unknown") := by
  refine ⟨?_, ?_, ?_⟩ <;> unfold parseProcCpuinfo <;> dsimp only
  · exact foldl_vendor lines initState rfl
  · exact foldl_model lines initState rfl
  · exact foldl_cache lines initState rfl

/-- C8 counterexample: a first `vendor_id` line with an empty value is kept
and blocks the later non-empty occurrence, refuting the claim that only the
first non-empty occurrence is captured. -/
theorem first_capture_keeps_empty_value :
    (parseProcCpuinfo ["vendor_id\t:", "vendor_id\t: GenuineIntel"]).vendor = ""
    ∧ (parseProcCpuinfo ["vendor_id\t:", "vendor_id\t: GenuineIntel"]).vendor
        ≠ "GenuineIntel" := by
  constructor <;> decide

/-! ## Provenance lemmas for C6. -/

theorem firstNonUnknown_mem (key : String) (lines : List String) (v : String) :
    firstNonUnknown key lines = some v → ∃ l ∈ lines, lineKV l = some (key, v) := by
  induction lines with
  | nil => intro h; exact absurd h (by simp [firstNonUnknown])
  | cons l ls ih =>
    intro h
    unfold firstNonUnknown at h
    cases hkv : lineKV l with
    | none =>
      rw [hkv] at h
      obtain ⟨l', h1, h2⟩ := ih h
      exact ⟨l', by simp [h1], h2⟩
    | some kv =>
      rw [hkv] at h
      dsimp only at h
      by_cases hc : kv.1 = key ∧ kv.2 ≠ "Unknown"
      · rw [if_pos hc] at h
        refine ⟨l, by simp, ?_⟩
        rw [hkv, ← hc.1, ← Option.some.inj h]
      · rw [if_neg hc] at h
        obtain ⟨l', h1, h2⟩ := ih h
        exact ⟨l', by simp [h1], h2⟩

theorem osRelStep_fst (acc : Option String × Option String × Option String) (l : String) :
    (osRelStep acc l).1
      = match prettyVal l with
        | some v => some v
        | none => acc.1 := by
  unfold osRelStep prettyVal
  cases h : splitFirstOn '=' (pyStripChars l.toList) with
  | none => rfl
  | some kv =>
    cases kv with
    | mk k v =>
      dsimp only
      split_ifs <;> simp_all

theorem osRelStep_name (acc : Option String × Option String × Option String) (l : String) :
    (osRelStep acc l).2.1
      = match nameVal l with
        | some v => some v
        | none => acc.2.1 := by
  unfold osRelStep nameVal
  cases h : splitFirstOn '=' (pyStripChars l.toList) with
  | none => rfl
  | some kv =>
    cases kv with
    | mk k v =>
      dsimp only
      split_ifs <;> simp_all

theorem osRelStep_version (acc : Option String × Option String × Option String) (l : String) :
    (osRelStep acc l).2.2
      = match versionVal l with
        | some v => some v
        | none => acc.2.2 := by
  unfold osRelStep versionVal
  cases h : splitFirstOn '=' (pyStripChars l.toList) with
  | none => rfl
  | some kv =>
    cases kv with
    | mk k v =>
      dsimp only
      split_ifs <;> simp_all

theorem osRel_fst_provenance (ls : List String) :
    ∀ acc p, (ls.foldl osRelStep acc).1 = some p →
      acc.1 = some p ∨ ∃ l ∈ ls, prettyVal l = some p := by
  induction ls with
  | nil => intro acc p h; exact Or.inl h
  | cons l ls ih =>
    intro acc p h
    rcases ih _ p h with h' | ⟨l', hl', hp⟩
    · rw [osRelStep_fst] at h'
      cases hnv : prettyVal l with
      | none => rw [hnv] at h'; exact Or.inl h'
      | some v =>
        rw [hnv] at h'
        dsimp only at h'
        exact Or.inr ⟨l, by simp, hnv.trans h'⟩
    · exact Or.inr ⟨l', by simp [hl'], hp⟩

theorem osRel_name_provenance (ls : List String) :
    ∀ acc p, (ls.foldl osRelStep acc).2.1 = some p →
      acc.2.1 = some p ∨ ∃ l ∈ ls, nameVal l = some p := by
  induction ls with
  | nil => intro acc p h; exact Or.inl h
  | cons l ls ih =>
    intro acc p h
    rcases ih _ p h with h' | ⟨l', hl', hp⟩
    · rw [osRelStep_name] at h'
      cases hnv : nameVal l with
      | none => rw [hnv] at h'; exact Or.inl h'
      | some v =>
        rw [hnv] at h'
        dsimp only at h'
        exact Or.inr ⟨l, by simp, hnv.trans h'⟩
    · exact Or.inr ⟨l', by simp [hl'], hp⟩

theorem osRel_version_provenance (ls : List String) :
    ∀ acc p, (ls.foldl osRelStep acc).2.2 = some p →
      acc.2.2 = some p ∨ ∃ l ∈ ls, versionVal l = some p := by
  induction ls with
  | nil => intro acc p h; exact Or.inl h
  | cons l ls ih =>
    intro acc p h
    rcases ih _ p h with h' | ⟨l', hl', hp⟩
    · rw [osRelStep_version] at h'
      cases hnv : versionVal l with
      | none => rw [hnv] at h'; exact Or.inl h'
      | some v =>
        rw [hnv] at h'
        dsimp only at h'
        exact Or.inr ⟨l, by simp, hnv.trans h'⟩
    · exact Or.inr ⟨l', by simp [hl'], hp⟩

theorem truthy_eq_some (x : Option String) (v : String) :
    truthy x = some v → x = some v := by
  intro h
  cases x with
  | none => exact absurd h (by simp [truthy])
  | some s =>
    unfold truthy at h
    dsimp only at h
    by_cases hs : s = ""
    · rw [if_pos hs] at h
      exact absurd h (by simp)
    · rw [if_neg hs] at h
      rw [h]

theorem buildStats_vendor (env : Env) (lines : List String) :
    (buildStats env lines).cpu.vendor = (parseProcCpuinfo lines).vendor := rfl

theorem buildStats_model (env : Env) (lines : List String) :
    (buildStats env lines).cpu.model = (parseProcCpuinfo lines).model := rfl

theorem buildStats_cache (env : Env) (lines : List String) :
    (buildStats env lines).cpu.cache_size = (parseProcCpuinfo lines).cache_size := rfl

theorem detect_none_name (osr : Option (List String)) :
    (detectDistribution none osr).name = "Unknown"
      ∨ ∃ l ∈ osr.getD [], nameVal l = some ((detectDistribution none osr).name) := by
  unfold detectDistribution
  dsimp only
  cases osr with
  | none => exact Or.inl rfl
  | some ls =>
    cases ht : truthy (osRelTriple (some ls)).2.1 with
    | none => exact Or.inl (by simp [ht])
    | some nm =>
      right
      have h1 : (osRelTriple (some ls)).2.1 = some nm := truthy_eq_some _ _ ht
      have h2 := osRel_name_provenance ls (none, none, none) nm (by
        unfold osRelTriple at h1
        exact h1)
      rcases h2 with h' | ⟨l, hl, hv⟩
      · exact absurd h' (by simp)
      · exact ⟨l, by simpa using hl, by simp [ht, hv]⟩

theorem detect_none_version (osr : Option (List String)) :
    (detectDistribution none osr).version = "Unknown"
      ∨ ∃ l ∈ osr.getD [], versionVal l = some ((detectDistribution none osr).version) := by
  unfold detectDistribution
  dsimp only
  cases osr with
  | none => exact Or.inl rfl
  | some ls =>
    cases ht : truthy (osRelTriple (some ls)).2.2 with
    | none => exact Or.inl (by simp [ht])
    | some vr =>
      right
      have h1 : (osRelTriple (some ls)).2.2 = some vr := truthy_eq_some _ _ ht
      have h2 := osRel_version_provenance ls (none, none, none) vr (by
        unfold osRelTriple at h1
        exact h1)
      rcases h2 with h' | ⟨l, hl, hv⟩
      · exact absurd h' (by simp)
      · exact ⟨l, by simpa using hl, by simp [ht, hv]⟩

theorem detect_none_pretty (osr : Option (List String)) :
    (∃ l ∈ osr.getD [], prettyVal l = some ((detectDistribution none osr).pretty))
      ∨ (detectDistribution none osr).pretty
          = pyStrip ((detectDistribution none osr).name ++ " "
              ++ (detectDistribution none osr).version) := by
  unfold detectDistribution
  dsimp only
  cases osr with
  | none => exact Or.inr rfl
  | some ls =>
    cases ht : truthy (osRelTriple (some ls)).1 with
    | none => exact Or.inr (by simp [ht])
    | some p =>
      by_cases hp : p = "Unknown"
      · exact Or.inr (by simp [ht, hp])
      · left
        have h1 : (osRelTriple (some ls)).1 = some p := truthy_eq_some _ _ ht
        have h2 := osRel_fst_provenance ls (none, none, none) p (by
          unfold osRelTriple at h1
          exact h1)
        rcases h2 with h' | ⟨l, hl, hv⟩
        · exact absurd h' (by simp)
        · exact ⟨l, by simpa using hl, by simp [ht, hp, hv]⟩

theorem detect_lib_fields (nm vr pr : String) (osr : Option (List String)) :
    ((detectDistribution (some (nm, vr, pr)) osr).name = "Unknown"
      ∨ (detectDistribution (some (nm, vr, pr)) osr).name = nm)
    ∧ ((detectDistribution (some (nm, vr, pr)) osr).version = "Unknown"
      ∨ (detectDistribution (some (nm, vr, pr)) osr).version = vr)
    ∧ ((detectDistribution (some (nm, vr, pr)) osr).pretty = pr
      ∨ (detectDistribution (some (nm, vr, pr)) osr).pretty
          = pyStrip ((detectDistribution (some (nm, vr, pr)) osr).name ++ " "
              ++ (detectDistribution (some (nm, vr, pr)) osr).version)) := by
  unfold detectDistribution
  dsimp only
  refine ⟨?_, ?_, ?_⟩
  · by_cases h : nm = "" <;> simp [h]
  · by_cases h : vr = "" <;> simp [h]
  · by_cases h : pr = "" <;> simp [h]

/-- C6 counterexample: a descriptor whose first `vendor_id` line carries an
empty value makes the final report's vendor field the empty string, refuting
the claim that no string field is ever empty. -/
theorem report_vendor_empty_string :
    (getCpuStat
        { cpuinfo := some ["vendor_id\t:"], topology := [], cpufreqPolicy := none,
          meminfoFirstLine := none, lib := none, osRelease := none,
          kernelRelease := none, osSystem := "Linux", osVersion := "" }).map
        (fun s => s.cpu.vendor)
      = Except.ok ""
    ∧ ("" : String) ≠ "Unknown" := by
  constructor
  · rfl
  · decide

/-- C6 (amended): every string field of the final report is either a value
genuinely observed in its source or the sentinel "Unknown" (the distribution
pretty string possibly synthesized as "name version" trimmed, and library
name/version guarded to "Unknown" when empty); no field is null, but vendor,
model, cache size (and the kernel string) may echo an observed empty value. -/
theorem report_fields_observed_or_unknown (env : Env) (lines : List String) :
    ((buildStats env lines).cpu.vendor = "Unknown"
      ∨ ∃ l ∈ lines, lineKV l = some ("vendor_id", (buildStats env lines).cpu.vendor))
    ∧ ((buildStats env lines).cpu.model = "Unknown"
      ∨ ∃ l ∈ lines, lineKV l = some ("model name", (buildStats env lines).cpu.model))
    ∧ ((buildStats env lines).cpu.cache_size = "Unknown"
      ∨ ∃ l ∈ lines, lineKV l = some ("cache size", (buildStats env lines).cpu.cache_size))
    ∧ ((buildStats env lines).kernel = "Unknown"
      ∨ env.kernelRelease = some ((buildStats env lines).kernel))
    ∧ (∀ osr, (detectDistribution none osr).name = "Unknown"
        ∨ ∃ l ∈ osr.getD [], nameVal l = some ((detectDistribution none osr).name))
    ∧ (∀ osr, (detectDistribution none osr).version = "Unknown"
        ∨ ∃ l ∈ osr.getD [], versionVal l = some ((detectDistribution none osr).version))
    ∧ (∀ osr, (∃ l ∈ osr.getD [], prettyVal l = some ((detectDistribution none osr).pretty))
        ∨ (detectDistribution none osr).pretty
            = pyStrip ((detectDistribution none osr).name ++ " "
                ++ (detectDistribution none osr).version))
    ∧ (∀ nm vr pr, ((detectDistribution (some (nm, vr, pr)) env.osRelease).name = "Unknown"
          ∨ (detectDistribution (some (nm, vr, pr)) env.osRelease).name = nm)
        ∧ ((detectDistribution (some (nm, vr, pr)) env.osRelease).version = "Unknown"
          ∨ (detectDistribution (some (nm, vr, pr)) env.osRelease).version = vr)
        ∧ ((detectDistribution (some (nm, vr, pr)) env.osRelease).pretty = pr
          ∨ (detectDistribution (some (nm, vr, pr)) env.osRelease).pretty
              = pyStrip ((detectDistribution (some (nm, vr, pr)) env.osRelease).name ++ " "
                  ++ (detectDistribution (some (nm, vr, pr)) env.osRelease).version))) := by
  have hv : (buildStats env lines).cpu.vendor
      = (firstNonUnknown "vendor_id" lines).getD "Unknown" := by
    rw [buildStats_vendor]
    unfold parseProcCpuinfo
    dsimp only
    exact foldl_vendor lines initState rfl
  have hm : (buildStats env lines).cpu.model
      = (firstNonUnknown "model name" lines).getD "Unknown" := by
    rw [buildStats_model]
    unfold parseProcCpuinfo
    dsimp only
    exact foldl_model lines initState rfl
  have hc : (buildStats env lines).cpu.cache_size
      = (firstNonUnknown "cache size" lines).getD "Unknown" := by
    rw [buildStats_cache]
    unfold parseProcCpuinfo
    dsimp only
    exact foldl_cache lines initState rfl
  refine ⟨?_, ?_, ?_, ?_, detect_none_name, detect_none_version, detect_none_pretty,
    fun nm vr pr => detect_lib_fields nm vr pr env.osRelease⟩
  · cases hfn : firstNonUnknown "vendor_id" lines with
    | none => exact Or.inl (by rw [hv, hfn]; rfl)
    | some v =>
      obtain ⟨l, hl, hkv⟩ := firstNonUnknown_mem _ _ _ hfn
      exact Or.inr ⟨l, hl, by rw [hv, hfn]; exact hkv⟩
  · cases hfn : firstNonUnknown "model name" lines with
    | none => exact Or.inl (by rw [hm, hfn]; rfl)
    | some v =>
      obtain ⟨l, hl, hkv⟩ := firstNonUnknown_mem _ _ _ hfn
      exact Or.inr ⟨l, hl, by rw [hm, hfn]; exact hkv⟩
  · cases hfn : firstNonUnknown "cache size" lines with
    | none => exact Or.inl (by rw [hc, hfn]; rfl)
    | some v =>
      obtain ⟨l, hl, hkv⟩ := firstNonUnknown_mem _ _ _ hfn
      exact Or.inr ⟨l, hl, by rw [hc, hfn]; exact hkv⟩
  · cases hk : env.kernelRelease with
    | none => exact Or.inl (by unfold buildStats; simp [hk])
    | some k => exact Or.inr (by unfold buildStats; simp [hk])

/-- C9: with no detection library and no usable pretty string from the
descriptor file, the pretty field is synthesized as the name and version
joined by a space and trimmed (each component defaulting to "Unknown"); a
library pretty result that is empty triggers the same synthesis; and with
nothing found at all the pretty string is the non-blank "Unknown Unknown". -/
theorem pretty_synthesized_from_name_version (osr : Option (List String))
    (h : truthy (osRelTriple osr).1 = none) :
    ((detectDistribution none osr).pretty
      = pyStrip ((detectDistribution none osr).name ++ " "
          ++ (detectDistribution none osr).version))
    ∧ (∀ nm vr, (detectDistribution (some (nm, vr, "")) osr).pretty
        = pyStrip ((detectDistribution (some (nm, vr, "")) osr).name ++ " "
            ++ (detectDistribution (some (nm, vr, "")) osr).version))
    ∧ (detectDistribution none none
        = { name := "Unknown", version := "Unknown", pretty := "Unknown Unknown" })
    ∧ ((detectDistribution none none).pretty ≠ "") := by
  refine ⟨?_, ?_, by decide, by decide⟩
  · unfold detectDistribution
    dsimp only
    rw [h]
    simp
  · intro nm vr
    unfold detectDistribution
    dsimp only
    rfl

/-- Witness for C9: a descriptor carrying only a NAME entry yields a pretty
string synthesized from the name and the default version. -/
theorem pretty_synthesized_from_name_version_witness :
    (detectDistribution none (some ["NAME=Ubuntu"])).pretty
      = pyStrip ((detectDistribution none (some ["NAME=Ubuntu"])).name ++ " "
          ++ (detectDistribution none (some ["NAME=Ubuntu"])).version) :=
  (pretty_synthesized_from_name_version (some ["NAME=Ubuntu"]) (by decide)).1
